import Mathlib

/- Verification of the devx-agents coding-agent core: the admission controller of
api/github-coding.ts and the session workflow, retrier, circuit breaker and
branch-name resolver of the CodingAgent class. Each definition is a shallow
embedding of the correspondingly named function of the source; external effects
(the GitHub bridge, the AI call, timers, randomness) are passed in as explicit
outcome parameters or oracles, and machine time is modelled as Nat milliseconds. -/

namespace DevxAgents

/-! ## Admission controller (api/github-coding.ts) -/

/-- One entry of the activeRequests table (interface ActiveRequest). -/
structure ActiveRequest where
  id : String
  repositoryUrl : String
  startTime : Nat
  ip : String
deriving DecidableEq, Repr

/-- const MAX_CONCURRENT_REQUESTS = 5. -/
def MAX_CONCURRENT_REQUESTS : Nat := 5

/-- const MAX_REQUESTS_PER_IP = 2. -/
def MAX_REQUESTS_PER_IP : Nat := 2

/-- const REQUEST_TIMEOUT = 5 * 60 * 1000 (five minutes in milliseconds). -/
def REQUEST_TIMEOUT : Nat := 5 * 60 * 1000

/-- cleanupExpiredRequests: deletes every entry with now - startTime > REQUEST_TIMEOUT.
The Map is modelled as a list in insertion order; deletion keeps exactly the entries
with now - startTime <= REQUEST_TIMEOUT. -/
def cleanupExpiredRequests (now : Nat) (table : List ActiveRequest) : List ActiveRequest :=
  table.filter (fun r => decide (now - r.startTime ≤ REQUEST_TIMEOUT))

/-- Number of table entries whose ip equals clientIp (the ipActive count computed by
checkConcurrentRequests via Array.from(activeRequests.values()).filter). -/
def ipCount (clientIp : String) (table : List ActiveRequest) : Nat :=
  (table.filter (fun r => decide (r.ip = clientIp))).length

/-- The record returned by checkConcurrentRequests. -/
structure ConcurrencyCheck where
  allowed : Bool
  reason : Option String
  activeCount : Nat
  maxAllowed : Nat
deriving DecidableEq, Repr

/-- checkConcurrentRequests: runs cleanupExpiredRequests first, then checks the global
limit and the per-IP limit on the cleaned table. The source mutates the module-level
Map in place; the model returns the cleaned table alongside the check record. -/
def checkConcurrentRequests (now : Nat) (clientIp : String) (table : List ActiveRequest) :
    ConcurrencyCheck × List ActiveRequest :=
  let cleaned := cleanupExpiredRequests now table
  let totalActive := cleaned.length
  let ipActive := ipCount clientIp cleaned
  if totalActive ≥ MAX_CONCURRENT_REQUESTS then
    ({ allowed := false,
       reason := some "Too many concurrent requests. Maximum 5 allowed globally.",
       activeCount := totalActive, maxAllowed := MAX_CONCURRENT_REQUESTS }, cleaned)
  else if ipActive ≥ MAX_REQUESTS_PER_IP then
    ({ allowed := false,
       reason := some "Too many concurrent requests from your IP. Maximum 2 allowed per IP.",
       activeCount := ipActive, maxAllowed := MAX_REQUESTS_PER_IP }, cleaned)
  else
    ({ allowed := true, reason := none,
       activeCount := totalActive, maxAllowed := MAX_CONCURRENT_REQUESTS }, cleaned)

/-- Map.set semantics on the list model: replace the entry with the same key if
present, otherwise append at the end. -/
def mapSet (table : List ActiveRequest) (entry : ActiveRequest) : List ActiveRequest :=
  if table.any (fun r => decide (r.id = entry.id)) then
    table.map (fun r => if r.id = entry.id then entry else r)
  else
    table ++ [entry]

/-- registerActiveRequest: inserts the entry for requestId; startTime is the Date.now()
of the registration, passed in as now. -/
def registerActiveRequest (requestId repositoryUrl : String) (now : Nat) (clientIp : String)
    (table : List ActiveRequest) : List ActiveRequest :=
  mapSet table { id := requestId, repositoryUrl := repositoryUrl, startTime := now, ip := clientIp }

/-- unregisterActiveRequest: Map.delete on the key. -/
def unregisterActiveRequest (requestId : String) (table : List ActiveRequest) :
    List ActiveRequest :=
  table.filter (fun r => !(decide (r.id = requestId)))

/-- One handler-level event against the shared activeRequests table: an admission
attempt (checkConcurrentRequests, then registerActiveRequest exactly when the check
allowed it, as in the handler of api/github-coding.ts), or an unregistration. -/
inductive AdmissionEvent where
  | attempt (requestId repositoryUrl clientIp : String) (now : Nat)
  | unregister (requestId : String)
deriving Repr

/-- Effect of one event on the table. -/
def admissionStep (table : List ActiveRequest) : AdmissionEvent → List ActiveRequest
  | .attempt requestId repositoryUrl clientIp now =>
    let chk := checkConcurrentRequests now clientIp table
    if chk.1.allowed then registerActiveRequest requestId repositoryUrl now clientIp chk.2
    else chk.2
  | .unregister requestId => unregisterActiveRequest requestId table

/-- The table after a sequence of events, starting from the empty module-level Map. -/
def runAdmission (events : List AdmissionEvent) : List ActiveRequest :=
  events.foldl admissionStep []

/-- The keys of the table. -/
def idsOf (table : List ActiveRequest) : List String :=
  table.map (fun r => r.id)

/-- The admission invariant, strengthened with key uniqueness (which holds of every
Map): the global count respects MAX_CONCURRENT_REQUESTS, every per-IP count respects
MAX_REQUESTS_PER_IP, and keys are distinct. -/
def AdmissionInv (table : List ActiveRequest) : Prop :=
  table.length ≤ MAX_CONCURRENT_REQUESTS ∧
  (∀ clientIp, ipCount clientIp table ≤ MAX_REQUESTS_PER_IP) ∧
  (idsOf table).Nodup

/-! ## Errors thrown inside the CodingAgent -/

/-- A JavaScript thrown value as the CodingAgent sees it: either an Error instance
(jsError, carrying its message), or a plain CodingError object built by
createCodingError, which is not an instanceof Error (codingErrorObj). -/
inductive ThrownError where
  | jsError (message : String)
  | codingErrorObj (code : String) (message : String)
deriving DecidableEq, Repr

/-- The message field of the thrown value. -/
def errMessage : ThrownError → String
  | .jsError m => m
  | .codingErrorObj _ m => m

/-- lastError = error instanceof Error ? error : new Error(String(error)) in
retryOperation: a plain object stringifies to "[object Object]". -/
def toJsError : ThrownError → ThrownError
  | .jsError m => .jsError m
  | .codingErrorObj _ _ => .jsError "[object Object]"

/-! ## Circuit breaker (callWithCircuitBreaker) -/

/-- The state tag of one breaker: the source strings are "closed", "open",
"half-open"; "open" is rendered opened because open is a Lean keyword. -/
inductive BreakerStateTag where
  | closed
  | opened
  | halfOpen
deriving DecidableEq, Repr

/-- One entry of the circuitBreakers map. -/
structure CircuitBreaker where
  failures : Nat
  lastFailure : Nat
  state : BreakerStateTag
deriving DecidableEq, Repr

/-- What one guarded call produced: the value, an immediate rejection because the
breaker was open (the DependencyUnavailable error of the spec, carrying the service
key, the failure count and the remaining cooldown in milliseconds, from which the
suggestion renders Math.ceil(remaining / 1000) seconds), or the rethrown operation
error. -/
inductive BreakerOutcome (A : Type) where
  | ok (value : A)
  | rejectedOpen (serviceKey : String) (failures : Nat) (remainingMs : Nat)
  | opError (e : ThrownError)
deriving DecidableEq, Repr

/-- Result of one call through the breaker: the outcome, whether the underlying
operation was invoked at all, and the breaker entry as left in the map. -/
structure BreakerCallResult (A : Type) where
  outcome : BreakerOutcome A
  invoked : Bool
  breaker : CircuitBreaker
deriving DecidableEq, Repr

/-- callWithCircuitBreaker for one service key: stored is the current map entry for
the key (none means lazily created as failures 0, lastFailure 0, closed), opOutcome
is what the underlying operation would produce if invoked, and now is Date.now(). -/
def callWithCircuitBreaker {A : Type} (serviceKey : String) (stored : Option CircuitBreaker)
    (opOutcome : Except ThrownError A) (failureThreshold timeoutMs now : Nat) :
    BreakerCallResult A :=
  let breaker0 := stored.getD { failures := 0, lastFailure := 0, state := .closed }
  let breaker1 :=
    if breaker0.state = .opened ∧ now - breaker0.lastFailure > timeoutMs then
      { breaker0 with state := .halfOpen, failures := 0 }
    else breaker0
  if breaker1.state = .opened then
    { outcome := .rejectedOpen serviceKey breaker1.failures
        (timeoutMs - (now - breaker1.lastFailure)),
      invoked := false, breaker := breaker1 }
  else
    match opOutcome with
    | .ok v =>
      let breaker2 :=
        if breaker1.state = .halfOpen then { breaker1 with state := .closed, failures := 0 }
        else breaker1
      { outcome := .ok v, invoked := true, breaker := breaker2 }
    | .error e =>
      let f := breaker1.failures + 1
      { outcome := .opError e, invoked := true,
        breaker := { failures := f, lastFailure := now,
                     state := if f ≥ failureThreshold then .opened else breaker1.state } }

/-! ## Retrier (retryOperation, isRetryableError) -/

/-- Substring containment on character lists. -/
def charListContains (pat : List Char) : List Char → Bool
  | [] => pat.isEmpty
  | c :: rest => pat.isPrefixOf (c :: rest) || charListContains pat rest

/-- ASCII lowering of one character (all strings the source tests case-insensitively
are ASCII, so toLowerCase is modelled on the ASCII range). -/
def lowerChar (c : Char) : Char :=
  if 65 ≤ c.toNat ∧ c.toNat ≤ 90 then Char.ofNat (c.toNat + 32) else c

/-- ASCII raising of one character (models toUpperCase on the ASCII range). -/
def upperChar (c : Char) : Char :=
  if 97 ≤ c.toNat ∧ c.toNat ≤ 122 then Char.ofNat (c.toNat - 32) else c

/-- toUpperCase on the ASCII range. -/
def toUpperAscii (s : String) : String :=
  String.mk (s.toList.map upperChar)

/-- JavaScript message.includes(pat): case-sensitive substring test. -/
def strContains (hay pat : String) : Bool :=
  charListContains pat.toList hay.toList

/-- A case-insensitive regex such as /network/i applied to hay, for an all-lowercase
pattern, and equally hay.toLowerCase().includes(pat): test containment in the lowered
haystack. -/
def strContainsCI (hay pat : String) : Bool :=
  charListContains pat.toList (hay.toList.map lowerChar)

/-- isRetryableError: the retryablePatterns list, tested against error.message.
/network/i, /timeout/i and /rate limit/i are case-insensitive; the status codes and
errno names are case-sensitive. -/
def isRetryableError (e : ThrownError) : Bool :=
  let msg := errMessage e
  strContainsCI msg "network" || strContainsCI msg "timeout" || strContainsCI msg "rate limit" ||
    strContains msg "502" || strContains msg "503" || strContains msg "504" ||
    strContains msg "ECONNRESET" || strContains msg "ENOTFOUND" || strContains msg "ETIMEDOUT"

/-- Result of retryOperation: the final result (error none models the throw of the
null lastError when the loop body never ran, possible only for maxRetries = 0), the
index of the last invocation made (0 when none), and the backoff delays slept, in
order. -/
structure RetryOutcome (A : Type) where
  result : Except (Option ThrownError) A
  attemptsMade : Nat
  delays : List Nat
deriving Repr

/-- The for-loop of retryOperation: op attempt is what the attempt-th invocation of
the operation produces; fuel is the number of loop iterations still permitted and is
maxRetries - attempt + 1 at every reachable call, so the fuel-0 branch is never
taken from retryOperation. -/
def retryGo {A : Type} (op : Nat → Except ThrownError A) (maxRetries baseDelay : Nat) :
    Nat → Nat → RetryOutcome A
  | _attempt, 0 => { result := .error none, attemptsMade := 0, delays := [] }
  | attempt, fuel + 1 =>
    match op attempt with
    | .ok v => { result := .ok v, attemptsMade := attempt, delays := [] }
    | .error e =>
      let lastError := toJsError e
      if !isRetryableError lastError || attempt = maxRetries then
        { result := .error (some lastError), attemptsMade := attempt, delays := [] }
      else
        let d := baseDelay * 2 ^ (attempt - 1)
        let rest := retryGo op maxRetries baseDelay (attempt + 1) fuel
        { result := rest.result, attemptsMade := rest.attemptsMade, delays := d :: rest.delays }

/-- retryOperation: attempts run from 1 to maxRetries; a non-retryable failure or the
final attempt rethrows, a retryable one sleeps baseDelay * 2 ^ (attempt - 1) and
retries. -/
def retryOperation {A : Type} (op : Nat → Except ThrownError A) (maxRetries baseDelay : Nat) :
    RetryOutcome A :=
  retryGo op maxRetries baseDelay 1 maxRetries

/-- Specification of the retry loop entered at the given attempt index: the last
invocation lies between attempt and maxRetries; the slept delays follow the
exponential schedule; every invocation before the last failed with an error
classified as transient; a rethrown error is the (Error-normalised) outcome of the
last invocation and was either non-transient or occurred on the final permitted
attempt; a success is the outcome of the last invocation. -/
def RetryGoSpec {A : Type} (op : Nat → Except ThrownError A)
    (maxRetries baseDelay attempt : Nat) (r : RetryOutcome A) : Prop :=
  (attempt ≤ r.attemptsMade ∧ r.attemptsMade ≤ maxRetries) ∧
  r.delays = (List.range (r.attemptsMade - attempt)).map
    (fun k => baseDelay * 2 ^ (attempt - 1 + k)) ∧
  (∀ k, attempt ≤ k → k < r.attemptsMade →
    ∃ e, op k = .error e ∧ isRetryableError (toJsError e) = true) ∧
  (∀ e, r.result = .error (some e) →
    ∃ e0, op r.attemptsMade = .error e0 ∧ e = toJsError e0 ∧
      (isRetryableError e = false ∨ r.attemptsMade = maxRetries)) ∧
  (∀ v, r.result = .ok v → op r.attemptsMade = .ok v)

/-! ## Branch name resolver -/

/-- The BRANCH_CONFLICT error thrown by generateUniqueBranchName after 100 attempts
(a plain CodingError object). -/
def branchConflictError : ThrownError :=
  .codingErrorObj "BRANCH_CONFLICT" "Unable to generate unique branch name after 100 attempts"

/-- The while-loop of generateUniqueBranchName. lookup is the branchExists check
(modelled as a pure oracle from names to existence; the mock of the source always
answers false). The pair's second component counts the existence checks performed.
fuel bounds the loop iterations; the counter guard throws before fuel can reach 0
from the top-level call. -/
def generateUniqueBranchNameGo (lookup : String → Bool) (baseName : String) :
    String → Nat → Nat → Except ThrownError String × Nat
  | _branchName, _counter, 0 => (.error (.jsError "loop fuel exhausted"), 0)
  | branchName, counter, fuel + 1 =>
    if lookup branchName then
      if counter + 1 > 100 then (.error branchConflictError, 1)
      else
        let r := generateUniqueBranchNameGo lookup baseName
          (baseName ++ "-" ++ toString counter) (counter + 1) fuel
        (r.1, r.2 + 1)
    else (.ok branchName, 1)

/-- generateUniqueBranchName: returns the base name if absent, otherwise tries
baseName-1, baseName-2, ... and throws BRANCH_CONFLICT once the counter passes 100. -/
def generateUniqueBranchName (lookup : String → Bool) (baseName : String) :
    Except ThrownError String × Nat :=
  generateUniqueBranchNameGo lookup baseName baseName 1 101

/-- baseName.replace(regex anchored-nondash-run-then-dash, empty): drop everything up
to and including the first dash, provided the name does not start with a dash. Helper:
the characters after the first dash, if any. -/
def afterFirstDash : List Char → Option (List Char)
  | [] => none
  | c :: t => if c = '-' then some t else afterFirstDash t

/-- The strategy-4 prefix rewrite of generateUniqueBranchNameWithFallback. -/
def stripLeadingSegment (s : String) : String :=
  match s.toList with
  | [] => s
  | c :: t =>
    if c = '-' then s
    else
      match afterFirstDash t with
      | some rest => String.mk rest
      | none => s

/-- The nondeterministic inputs drawn by the fallback strategies: one Date.now() per
strategy invocation, the random and UUID-derived suffixes, and the timestamp and
random suffix of the emergency name. -/
structure FallbackEnv where
  ts1 : Nat
  rnd2 : String
  uuid8 : String
  ts4 : Nat
  ts5 : Nat
  tsE : Nat
  rndE : String
deriving Repr

/-- The fallbackStrategies array of generateUniqueBranchNameWithFallback, in order:
timestamp suffix, random suffix, UUID-like suffix, feature prefix with timestamp,
simplified auto name. -/
def fallbackStrategies (baseName : String) (fe : FallbackEnv) : List String :=
  [baseName ++ "-" ++ toString fe.ts1,
   baseName ++ "-" ++ fe.rnd2,
   baseName ++ "-" ++ fe.uuid8,
   "feature-" ++ stripLeadingSegment baseName ++ "-" ++ toString fe.ts4,
   "auto-" ++ toString fe.ts5]

/-- The final fallback of generateUniqueBranchNameWithFallback, returned without any
existence check. -/
def emergencyName (fe : FallbackEnv) : String :=
  "emergency-" ++ toString fe.tsE ++ "-" ++ fe.rndE

/-- generateUniqueBranchNameWithFallback: check the base name first and return it when
absent; otherwise walk the first min(5, maxAttempts) strategies and return the first
name the check reports absent; when all of them collide, return the emergency name.
The retryOperation wrapper around each check is the identity for a pure oracle that
never throws (so the catch branches of the source never fire here). -/
def generateUniqueBranchNameWithFallback (lookup : String → Bool) (baseName : String)
    (maxAttempts : Nat) (fe : FallbackEnv) : String :=
  if lookup baseName = false then baseName
  else
    match ((fallbackStrategies baseName fe).take maxAttempts).find? (fun n => !(lookup n)) with
    | some n => n
    | none => emergencyName fe

/-! ## Session workflow (processRequest and its steps) -/

/-- The six values of CodingSession.status; the source strings are "analyzing",
"generating", "committing", "creating-pr", "completed", "failed". -/
inductive SessionStatus where
  | analyzing
  | generating
  | committing
  | creatingPr
  | completed
  | failed
deriving DecidableEq, Repr

/-- GeneratedCode.operation. -/
inductive FileOp where
  | create
  | modify
deriving DecidableEq, Repr

/-- One generated file operation (interface GeneratedCode). The content field, a
large literal template irrelevant to every claim, is omitted from the model. -/
structure GeneratedCode where
  filePath : String
  operation : FileOp
  description : String
deriving DecidableEq, Repr

/-- generateCodeWithAI (the mock generator): keyword checks on the lowered AI prompt
select up to three stock files; when none match, a generic module is produced, so the
result is never empty. -/
def generateCodeWithAI (aiPrompt : String) : List GeneratedCode :=
  let files1 :=
    if strContainsCI aiPrompt "api" || strContainsCI aiPrompt "endpoint" then
      [{ filePath := "api/new-endpoint.ts", operation := .create,
         description := "New API endpoint following Vercel serverless function pattern" }]
    else []
  let files2 :=
    if strContainsCI aiPrompt "agent" || strContainsCI aiPrompt "tool" then
      [{ filePath := "src/agents/new-agent.ts", operation := .create,
         description := "New agent following the established agent pattern" }]
    else []
  let files3 :=
    if strContainsCI aiPrompt "utility" || strContainsCI aiPrompt "helper" then
      [{ filePath := "src/utils/new-utility.ts", operation := .create,
         description := "New utility function with proper TypeScript types" }]
    else []
  let files := files1 ++ files2 ++ files3
  if files.isEmpty then
    [{ filePath := "src/modules/generated-module.ts", operation := .create,
       description := "Generated module based on user requirements" }]
  else files

/-- determineFileLocations: per-file path adjustment against the analysed project
directories (validateGeneratedCode, also a per-file map, touches only the omitted
content field and is the identity here). -/
def determineFileLocations (files : List GeneratedCode) (directories : List String) :
    List GeneratedCode :=
  files.map (fun f =>
    let p1 :=
      if f.filePath.startsWith "src/" && !(directories.contains "src") then f.filePath.drop 4
      else f.filePath
    let p2 := if !(p1.endsWith ".ts" || p1.endsWith ".js") then p1 ++ ".ts" else p1
    { f with filePath := p2 })

/-- filePath.split(dot) on character lists: a dot starts a new segment; the empty
path yields one empty segment, as in JavaScript. -/
def splitOnDot : List Char → List (List Char)
  | [] => [[]]
  | c :: t =>
    let r := splitOnDot t
    if c = '.' then [] :: r
    else
      match r with
      | [] => [[c]]
      | h :: t2 => (c :: h) :: t2

/-- generateCommitMessage: counts create and modify operations, then appends the file
type set derived from the path extensions (a JS Set iterates in insertion order,
modelled by eraseDups keeping first occurrences). -/
def generateCommitMessage (generatedFiles : List GeneratedCode) : String :=
  let createCount := (generatedFiles.filter (fun f => decide (f.operation = .create))).length
  let modifyCount := (generatedFiles.filter (fun f => decide (f.operation = .modify))).length
  let base :=
    if createCount > 0 ∧ modifyCount > 0 then
      "feat: " ++ "add " ++ toString createCount ++
        (if createCount = 1 then " new file" else " new files") ++
        " and modify " ++ toString modifyCount ++
        (if modifyCount = 1 then " file" else " files")
    else if createCount > 0 then
      "feat: " ++ "add " ++ toString createCount ++
        (if createCount = 1 then " new file" else " new files")
    else if modifyCount > 0 then
      "feat: " ++ "modify " ++ toString modifyCount ++
        (if modifyCount = 1 then " file" else " files")
    else "feat: " ++ "update codebase"
  let fileTypes :=
    (generatedFiles.map (fun f =>
      let ext := String.mk ((splitOnDot f.filePath.toList).getLastD [])
      if ext = "ts" then "TypeScript"
      else if ext = "" then "file" else toUpperAscii ext)).eraseDups
  if fileTypes.length = 1 then base ++ " (" ++ fileTypes.headD "" ++ ")"
  else if fileTypes.length > 1 then base ++ " (" ++ String.intercalate ", " fileTypes ++ ")"
  else base

/-- The CodingSession record. -/
structure CodingSession where
  id : String
  prompt : String
  repositoryUrl : String
  baseBranch : String
  branchName : String
  status : SessionStatus
  createdFiles : List String
  modifiedFiles : List String
  commitMessage : String
  pullRequestUrl : Option String
  error : Option String
deriving DecidableEq, Repr

/-- createSession: sessionId stands for the random coding-TIMESTAMP-RANDOM identifier. -/
def createSession (prompt repositoryUrl baseBranch sessionId : String) : CodingSession :=
  { id := sessionId, prompt := prompt, repositoryUrl := repositoryUrl,
    baseBranch := if baseBranch = "" then "main" else baseBranch,
    branchName := "coding-agent/" ++ sessionId,
    status := .analyzing, createdFiles := [], modifiedFiles := [],
    commitMessage := "", pullRequestUrl := none, error := none }

/-- updateSessionStatus on an existing session: sets status, and sets the error field
only when the error argument is a truthy (non-empty) string. -/
def updateSessionStatus (s : CodingSession) (status : SessionStatus) (err : Option String) :
    CodingSession :=
  { s with status := status,
           error := match err with
                    | some m => if m = "" then s.error else some m
                    | none => s.error }

/-- The message recorded by the catch of processRequest:
error instanceof Error ? error.message : the fixed string. -/
def capturedMessage : ThrownError → String
  | .jsError m => m
  | .codingErrorObj _ _ => "Unknown error"

/-- The message of the CodingError produced by handleError for a thrown value that is
neither a ZodError nor an Error instance: the fixed unexpected-error string; for an
Error instance every branch of handleError keeps error.message. -/
def handleErrorMessage : ThrownError → String
  | .jsError m => m
  | .codingErrorObj _ _ => "An unexpected error occurred"

/-- cleanupFailedGitOperations: the whole body is wrapped in try/catch whose catch
only logs, so the call never raises and never touches the session, whatever the
underlying branch deletion produced. -/
def cleanupFailedGitOperations (s : CodingSession) (deleteOutcome : Except ThrownError Unit) :
    CodingSession × Option ThrownError :=
  match deleteOutcome with
  | .ok _ => (s, none)
  | .error _ => (s, none)

/-- The outcomes of the external collaborators consulted by one processRequest run,
plus the nondeterministic identifiers: zod validation, codebase analysis, the built
AI prompt (whose context interpolations are abstracted), the analysed directory list,
the branchExists oracle, and the outcomes of createBranch, commitFiles, pushBranch,
createPullRequest and the cleanup branch deletion. -/
structure RunEnv where
  sessionId : String
  validationOk : Bool
  zodMessage : String
  analyzeOutcome : Except ThrownError Unit
  aiPrompt : String
  directories : List String
  branchLookup : String → Bool
  createBranchOutcome : Except ThrownError Unit
  commitOutcome : Except ThrownError Unit
  pushOutcome : Except ThrownError Unit
  prOutcome : Except ThrownError String
  cleanupDeleteOutcome : Except ThrownError Unit

/-- The CodingResponse returned by processRequest (the summary string, irrelevant to
every claim, is omitted). -/
structure CodingResponse where
  success : Bool
  pullRequestUrl : Option String
  branchName : Option String
  error : Option String
deriving DecidableEq, Repr

/-- Everything one processRequest run produced: the response, the session the agent
holds afterwards, the list of status values assigned by updateSessionStatus in order,
and the first error that reached the top-level catch. -/
structure RunResult where
  response : CodingResponse
  session : Option CodingSession
  assigns : List SessionStatus
  caught : Option ThrownError
deriving Repr

/-- The catch block of processRequest: record failed status and the captured message,
then attempt cleanup (branchName is never empty, so the cleanup guard passes), whose
result never replaces the captured error, and build the failure response through
handleError. -/
def finishFailed (s : CodingSession) (assigns : List SessionStatus) (e : ThrownError)
    (cleanupDeleteOutcome : Except ThrownError Unit) : RunResult :=
  let sFailed := updateSessionStatus s .failed (some (capturedMessage e))
  let sAfter :=
    if sFailed.branchName = "" then sFailed
    else (cleanupFailedGitOperations sFailed cleanupDeleteOutcome).1
  { response := { success := false, pullRequestUrl := none, branchName := none,
                  error := some (handleErrorMessage e) },
    session := some sAfter, assigns := assigns ++ [.failed], caught := some e }

/-- processRequest: validation, session creation, then the analyzing, generating,
committing (branch resolution, createBranch, commitFiles, pushBranch) and creating-pr
steps in order, with every throw routed to the single catch. Status assignments are
recorded exactly where the source performs them, including the repeated assignments
made inside generateCode, createBranch and pushBranch. -/
def processRequest (prompt repositoryUrl baseBranch : String) (env : RunEnv) : RunResult :=
  if env.validationOk = false then
    { response := { success := false, pullRequestUrl := none, branchName := none,
                    error := some "Invalid request format" },
      session := none, assigns := [], caught := some (.jsError env.zodMessage) }
  else
    let s1 := updateSessionStatus (createSession prompt repositoryUrl baseBranch env.sessionId)
      .analyzing none
    let a1 := [SessionStatus.analyzing]
    match env.analyzeOutcome with
    | .error e => finishFailed s1 a1 e env.cleanupDeleteOutcome
    | .ok _ =>
      let s2 := updateSessionStatus (updateSessionStatus s1 .generating none) .generating none
      let a2 := a1 ++ [.generating, .generating]
      let files := determineFileLocations (generateCodeWithAI env.aiPrompt) env.directories
      let s3 := updateSessionStatus s2 .committing none
      let a3 := a2 ++ [.committing]
      match (generateUniqueBranchName env.branchLookup s3.branchName).1 with
      | .error e => finishFailed s3 a3 e env.cleanupDeleteOutcome
      | .ok uniqueName =>
        match env.createBranchOutcome with
        | .error e =>
          finishFailed (cleanupFailedGitOperations s3 env.cleanupDeleteOutcome).1 a3 e
            env.cleanupDeleteOutcome
        | .ok _ =>
          let s4 := updateSessionStatus { s3 with branchName := uniqueName } .committing none
          let a4 := a3 ++ [.committing]
          match env.commitOutcome with
          | .error e =>
            finishFailed (cleanupFailedGitOperations s4 env.cleanupDeleteOutcome).1 a4 e
              env.cleanupDeleteOutcome
          | .ok _ =>
            let s5 := { s4 with
              commitMessage := generateCommitMessage files,
              createdFiles :=
                (files.filter (fun f => decide (f.operation = .create))).map
                  (fun f => f.filePath),
              modifiedFiles :=
                (files.filter (fun f => decide (f.operation = .modify))).map
                  (fun f => f.filePath) }
            match env.pushOutcome with
            | .error e =>
              finishFailed (cleanupFailedGitOperations s5 env.cleanupDeleteOutcome).1 a4 e
                env.cleanupDeleteOutcome
            | .ok _ =>
              let s6 := updateSessionStatus (updateSessionStatus s5 .creatingPr none)
                .creatingPr none
              let a6 := a4 ++ [.creatingPr, .creatingPr]
              match env.prOutcome with
              | .error e => finishFailed s6 a6 e env.cleanupDeleteOutcome
              | .ok url =>
                let s7 := updateSessionStatus { s6 with pullRequestUrl := some url }
                  .completed none
                { response := { success := true, pullRequestUrl := some url,
                                branchName := some uniqueName, error := none },
                  session := some s7, assigns := a6 ++ [.completed], caught := none }

/-- Collapse consecutive duplicates: the sequence of values the status field takes
over time, given the list of raw assignments. -/
def dedupConsec : List SessionStatus → List SessionStatus
  | [] => []
  | [x] => [x]
  | x :: y :: t => if x = y then dedupConsec (y :: t) else x :: dedupConsec (y :: t)

/-- The sequence of distinct values taken by the status field of the run's session,
starting from the analyzing value given at creation; empty when no session was
created. -/
def valuesTaken (r : RunResult) : List SessionStatus :=
  match r.session with
  | none => []
  | some _ => dedupConsec (SessionStatus.analyzing :: r.assigns)

/-- The forward status chain of the session state machine. -/
def statusChain : List SessionStatus :=
  [.analyzing, .generating, .committing, .creatingPr, .completed]

/-! ## Concrete inputs used by witnesses and counterexamples -/

/-- A stale table entry: registered at time 0. -/
def entryStale : ActiveRequest :=
  { id := "a", repositoryUrl := "r", startTime := 0, ip := "9.9.9.9" }

/-- A fresh table entry: registered at time 600000. -/
def entryFresh : ActiveRequest :=
  { id := "b", repositoryUrl := "r", startTime := 600000, ip := "9.9.9.9" }

/-- A table holding one expired and one live entry at time 600001. -/
def tableC9 : List ActiveRequest := [entryStale, entryFresh]

/-- Six admission attempts from one IP followed by four from distinct IPs. -/
def eventsC1 : List AdmissionEvent :=
  [.attempt "a" "r" "ip1" 0, .attempt "b" "r" "ip1" 0, .attempt "c" "r" "ip1" 0,
   .attempt "d" "r" "ip2" 0, .attempt "e" "r" "ip3" 0, .attempt "f" "r" "ip4" 0,
   .attempt "g" "r" "ip5" 0]

/-- A table already holding five live entries. -/
def tableFullC1 : List ActiveRequest :=
  [{ id := "a", repositoryUrl := "r", startTime := 0, ip := "ip1" },
   { id := "b", repositoryUrl := "r", startTime := 0, ip := "ip2" },
   { id := "c", repositoryUrl := "r", startTime := 0, ip := "ip3" },
   { id := "d", repositoryUrl := "r", startTime := 0, ip := "ip4" },
   { id := "e", repositoryUrl := "r", startTime := 0, ip := "ip5" }]

/-- An operation failing with a transient timeout on attempt 1, a non-transient
permission error on attempt 2, and succeeding afterwards. -/
def opC4 : Nat → Except ThrownError Nat := fun k =>
  if k = 1 then .error (.jsError "Connection timeout")
  else if k = 2 then .error (.jsError "permission denied")
  else .ok 42

/-- A branchExists oracle reporting every name as taken. -/
def lookupAllTaken : String → Bool := fun _ => true

/-- Concrete nondeterministic inputs for the fallback strategies. -/
def feC5 : FallbackEnv :=
  { ts1 := 1, rnd2 := "r2", uuid8 := "u8", ts4 := 4, ts5 := 5, tsE := 9, rndE := "zz" }

/-- A run whose analysis step throws a plain CodingError object (not an Error
instance), as the analyzeCodebase wrappers do. -/
def envC7bad : RunEnv :=
  { sessionId := "s1", validationOk := true, zodMessage := "zod",
    analyzeOutcome := .error (.codingErrorObj "CODE_GENERATION_FAILED"
      "Failed to analyze project structure: network down"),
    aiPrompt := "add an api endpoint", directories := [],
    branchLookup := fun _ => false,
    createBranchOutcome := .ok (), commitOutcome := .ok (), pushOutcome := .ok (),
    prOutcome := .ok "https://example.test/pr/123", cleanupDeleteOutcome := .ok () }

/-- A run whose analysis step throws an Error instance with a non-empty message. -/
def envC7good : RunEnv :=
  { envC7bad with analyzeOutcome := .error (.jsError "repository timeout") }

/-- The session left behind by the run with envC7good. -/
def sessC7good : CodingSession :=
  { id := "s1", prompt := "p", repositoryUrl := "u", baseBranch := "main",
    branchName := "coding-agent/s1", status := .failed, createdFiles := [],
    modifiedFiles := [], commitMessage := "", pullRequestUrl := none,
    error := some "repository timeout" }

/-- A fully successful run environment. -/
def envC10 : RunEnv :=
  { sessionId := "s2", validationOk := true, zodMessage := "zod",
    analyzeOutcome := .ok (), aiPrompt := "please refactor the parser",
    directories := ["src"], branchLookup := fun _ => false,
    createBranchOutcome := .ok (), commitOutcome := .ok (), pushOutcome := .ok (),
    prOutcome := .ok "https://example.test/pr/7", cleanupDeleteOutcome := .ok () }

/-! ## Theorems -/

/-- Claim C9: every admission check reclaims expired slots first: after
checkConcurrentRequests runs, the resulting table is exactly the cleaned table, no
remaining entry is older than REQUEST_TIMEOUT, and the admission decision is the
comparison of both limits against that cleaned table. -/
theorem checkConcurrentRequests_reclaims_expired (now : Nat) (clientIp : String)
    (table : List ActiveRequest) :
    (checkConcurrentRequests now clientIp table).2 = cleanupExpiredRequests now table ∧
    (∀ r ∈ (checkConcurrentRequests now clientIp table).2,
      now - r.startTime ≤ REQUEST_TIMEOUT) ∧
    ((checkConcurrentRequests now clientIp table).1.allowed = true ↔
      ((checkConcurrentRequests now clientIp table).2.length < MAX_CONCURRENT_REQUESTS ∧
        ipCount clientIp ((checkConcurrentRequests now clientIp table).2) <
          MAX_REQUESTS_PER_IP)) := by
  have hsnd : (checkConcurrentRequests now clientIp table).2 =
      cleanupExpiredRequests now table := by
    unfold checkConcurrentRequests
    dsimp only
    split_ifs <;> rfl
  refine ⟨hsnd, ?_, ?_⟩
  · intro r hr
    rw [hsnd] at hr
    exact of_decide_eq_true (List.mem_filter.mp hr).2
  · rw [hsnd]
    unfold checkConcurrentRequests
    dsimp only
    split_ifs with h1 h2
    · simp only [Bool.false_eq_true, false_iff, not_and, not_lt]
      omega
    · simp only [Bool.false_eq_true, false_iff, not_and, not_lt]
      omega
    · simp only [true_iff]
      omega

/-- Witness for C9: at time 600001 the stale entry registered at time 0 is removed by
the admission check even though it was never unregistered, and the surviving entry is
within the timeout. -/
theorem checkConcurrentRequests_reclaims_expired_witness :
    (checkConcurrentRequests 600001 "9.9.9.9" tableC9).2 = [entryFresh] ∧
    600001 - entryFresh.startTime ≤ REQUEST_TIMEOUT := by
  refine ⟨by decide, ?_⟩
  exact (checkConcurrentRequests_reclaims_expired 600001 "9.9.9.9" tableC9).2.1 entryFresh
    (by decide)

/-- Claim C3: a failed call whose incremented failure count reaches the threshold
leaves the breaker open with lastFailureTime = now, and any call made while the
breaker is open and the cooldown has not elapsed is rejected with the
DependencyUnavailable error carrying the remaining cooldown, without invoking the
underlying operation and without touching the stored breaker. -/
theorem circuitBreaker_trips_and_rejects {A : Type} (serviceKey : String)
    (b : CircuitBreaker) (opOutcome : Except ThrownError A)
    (failureThreshold timeoutMs now : Nat) :
    (∀ e, b.state = .closed → opOutcome = .error e → failureThreshold ≤ b.failures + 1 →
      (callWithCircuitBreaker serviceKey (some b) opOutcome failureThreshold
          timeoutMs now).breaker =
        { failures := b.failures + 1, lastFailure := now, state := .opened }) ∧
    (b.state = .opened → now - b.lastFailure ≤ timeoutMs →
      callWithCircuitBreaker serviceKey (some b) opOutcome failureThreshold timeoutMs now =
        { outcome := .rejectedOpen serviceKey b.failures (timeoutMs - (now - b.lastFailure)),
          invoked := false, breaker := b }) := by
  constructor
  · intro e hst hop hth
    subst hop
    simp [callWithCircuitBreaker, hst, ge_iff_le, hth]
  · intro hst hcool
    have hnot : ¬ now - b.lastFailure > timeoutMs := by omega
    simp [callWithCircuitBreaker, hst, hnot]

/-- Witness for C3: a breaker with 5 failures recorded at time 1000 and a one-minute
cooldown rejects a call at time 30000 with 31000 ms of cooldown remaining and no
invocation; and a closed breaker at 4 failures with threshold 5 trips open on the
next failure. -/
theorem circuitBreaker_trips_and_rejects_witness :
    callWithCircuitBreaker "github-mcp"
        (some { failures := 5, lastFailure := 1000, state := .opened })
        (Except.error (ThrownError.jsError "x") : Except ThrownError Nat) 5 60000 30000 =
      { outcome := .rejectedOpen "github-mcp" 5 31000, invoked := false,
        breaker := { failures := 5, lastFailure := 1000, state := .opened } } ∧
    (callWithCircuitBreaker "github-mcp"
        (some { failures := 4, lastFailure := 0, state := .closed })
        (Except.error (ThrownError.jsError "x") : Except ThrownError Nat) 5 60000 30000).breaker =
      { failures := 5, lastFailure := 30000, state := .opened } := by
  constructor
  · have h := (circuitBreaker_trips_and_rejects "github-mcp"
      { failures := 5, lastFailure := 1000, state := .opened }
      (Except.error (ThrownError.jsError "x") : Except ThrownError Nat) 5 60000 30000).2
      rfl (by decide)
    simpa using h
  · have h := (circuitBreaker_trips_and_rejects "github-mcp"
      { failures := 4, lastFailure := 0, state := .closed }
      (Except.error (ThrownError.jsError "x") : Except ThrownError Nat) 5 60000 30000).1
      (ThrownError.jsError "x") rfl rfl (by decide)
    simpa using h

/-- Counterexample to claim C2 as stated: a breaker in half-open state (failure count
reset to 0 on entering half-open) whose trial call fails does not return to open when
the threshold is 5 as configured: the failure count becomes 1 and the state stays
half-open. -/
theorem circuitBreaker_halfOpen_failure_not_open :
    (callWithCircuitBreaker "svc" (some { failures := 0, lastFailure := 0, state := .halfOpen })
        (Except.error (ThrownError.jsError "boom") : Except ThrownError Nat) 5 60000 777).breaker =
      { failures := 1, lastFailure := 777, state := .halfOpen } ∧
    (callWithCircuitBreaker "svc" (some { failures := 0, lastFailure := 0, state := .halfOpen })
        (Except.error (ThrownError.jsError "boom") : Except ThrownError Nat) 5 60000
        777).breaker.state ≠ .opened := by
  constructor
  · rfl
  · decide

/-- Claim C2 (amended): while half-open the breaker lets the call through; a success
moves it to closed with consecutiveFailures reset to 0; a failure increments the
failure count and records lastFailureTime = now, but the state returns to open only
when the incremented count reaches the failure threshold, and stays half-open
otherwise. -/
theorem circuitBreaker_halfOpen_spec {A : Type} (serviceKey : String) (b : CircuitBreaker)
    (opOutcome : Except ThrownError A) (failureThreshold timeoutMs now : Nat)
    (hst : b.state = .halfOpen) :
    (callWithCircuitBreaker serviceKey (some b) opOutcome failureThreshold timeoutMs
      now).invoked = true ∧
    (∀ v, opOutcome = .ok v →
      callWithCircuitBreaker serviceKey (some b) opOutcome failureThreshold timeoutMs now =
        { outcome := .ok v, invoked := true,
          breaker := { failures := 0, lastFailure := b.lastFailure, state := .closed } }) ∧
    (∀ e, opOutcome = .error e →
      callWithCircuitBreaker serviceKey (some b) opOutcome failureThreshold timeoutMs now =
        { outcome := .opError e, invoked := true,
          breaker := { failures := b.failures + 1, lastFailure := now,
                       state := if failureThreshold ≤ b.failures + 1 then .opened
                                else .halfOpen } }) := by
  refine ⟨?_, ?_, ?_⟩
  · rcases opOutcome with e | v <;> simp [callWithCircuitBreaker, hst]
  · intro v hop
    subst hop
    simp [callWithCircuitBreaker, hst]
  · intro e hop
    subst hop
    simp [callWithCircuitBreaker, hst, ge_iff_le]

/-- Witness for the amended C2: with threshold 5, a half-open breaker that fails its
trial at time 777 moves to failures 1, lastFailure 777, still half-open; one that
succeeds closes with failures 0. -/
theorem circuitBreaker_halfOpen_spec_witness :
    (callWithCircuitBreaker "svc" (some { failures := 0, lastFailure := 0, state := .halfOpen })
        (Except.error (ThrownError.jsError "boom") : Except ThrownError Nat) 5 60000 777).breaker =
      { failures := 1, lastFailure := 777, state := .halfOpen } ∧
    (callWithCircuitBreaker "svc" (some { failures := 0, lastFailure := 3, state := .halfOpen })
        (Except.ok 1 : Except ThrownError Nat) 5 60000 777).breaker =
      { failures := 0, lastFailure := 3, state := .closed } := by
  constructor
  · have h := (circuitBreaker_halfOpen_spec "svc"
      { failures := 0, lastFailure := 0, state := .halfOpen }
      (Except.error (ThrownError.jsError "boom") : Except ThrownError Nat) 5 60000 777 rfl).2.2
      (ThrownError.jsError "boom") rfl
    rw [h]
    decide
  · have h := (circuitBreaker_halfOpen_spec "svc"
      { failures := 0, lastFailure := 3, state := .halfOpen }
      (Except.ok 1 : Except ThrownError Nat) 5 60000 777 rfl).2.1 1 rfl
    rw [h]

/-- Counterexample to claim C5 as stated: with every name reported taken, the
fallback resolver returns the synthetic emergency name, which was never verified
absent (the oracle reports it present). -/
theorem branchResolver_fallback_returns_unverified :
    generateUniqueBranchNameWithFallback lookupAllTaken "coding-agent/s1" 10 feC5 =
      emergencyName feC5 ∧
    emergencyName feC5 = "emergency-9-zz" ∧
    lookupAllTaken
      (generateUniqueBranchNameWithFallback lookupAllTaken "coding-agent/s1" 10 feC5) = true := by
  exact ⟨rfl, rfl, rfl⟩

/-- Claim C5 (amended): the fallback resolver returns the base name unchanged when
the existence check reports it absent; otherwise it returns either a fallback
strategy name verified absent by an existence check, or, when the base name and every
attempted fallback strategy are reported present, the synthetic emergency name, which
is returned without verification. -/
theorem generateUniqueBranchNameWithFallback_spec (lookup : String → Bool)
    (baseName : String) (maxAttempts : Nat) (fe : FallbackEnv) :
    (lookup baseName = false ∧
      generateUniqueBranchNameWithFallback lookup baseName maxAttempts fe = baseName) ∨
    (lookup baseName = true ∧
      generateUniqueBranchNameWithFallback lookup baseName maxAttempts fe ∈
        (fallbackStrategies baseName fe).take maxAttempts ∧
      lookup (generateUniqueBranchNameWithFallback lookup baseName maxAttempts fe) = false) ∨
    (lookup baseName = true ∧
      (∀ n ∈ (fallbackStrategies baseName fe).take maxAttempts, lookup n = true) ∧
      generateUniqueBranchNameWithFallback lookup baseName maxAttempts fe =
        emergencyName fe) := by
  by_cases hb : lookup baseName = false
  · exact Or.inl ⟨hb, by simp [generateUniqueBranchNameWithFallback, hb]⟩
  · have hb' : lookup baseName = true := by
      revert hb
      cases lookup baseName <;> simp
    cases hf : ((fallbackStrategies baseName fe).take maxAttempts).find?
        (fun n => !(lookup n)) with
    | some n =>
      refine Or.inr (Or.inl ?_)
      have heq : generateUniqueBranchNameWithFallback lookup baseName maxAttempts fe = n := by
        simp [generateUniqueBranchNameWithFallback, hb', hf]
      have hmem := List.mem_of_find?_eq_some hf
      have hp := List.find?_some hf
      refine ⟨hb', ?_, ?_⟩
      · rw [heq]; exact hmem
      · rw [heq]; simpa using hp
    | none =>
      refine Or.inr (Or.inr ⟨hb', ?_, ?_⟩)
      · intro n hn
        have := List.find?_eq_none.mp hf n hn
        simpa using this
      · simp [generateUniqueBranchNameWithFallback, hb', hf]

/-- Unfolding of the counting loop when the current name is reported taken and the
incremented counter stays within the cap. -/
theorem genGo_step_continue (lookup : String → Bool) (baseName branchName : String)
    (counter f : Nat) (hl : lookup branchName = true) (hc : ¬ counter + 1 > 100) :
    generateUniqueBranchNameGo lookup baseName branchName counter (f + 1) =
      ((generateUniqueBranchNameGo lookup baseName (baseName ++ "-" ++ toString counter)
          (counter + 1) f).1,
       (generateUniqueBranchNameGo lookup baseName (baseName ++ "-" ++ toString counter)
          (counter + 1) f).2 + 1) := by
  simp [generateUniqueBranchNameGo, hl, hc]

/-- Unfolding of the counting loop when the incremented counter passes the cap. -/
theorem genGo_step_conflict (lookup : String → Bool) (baseName branchName : String)
    (counter f : Nat) (hl : lookup branchName = true) (hc : counter + 1 > 100) :
    generateUniqueBranchNameGo lookup baseName branchName counter (f + 1) =
      (.error branchConflictError, 1) := by
  simp [generateUniqueBranchNameGo, hl, hc]

/-- Unfolding of the counting loop when the current name is reported absent. -/
theorem genGo_step_found (lookup : String → Bool) (baseName branchName : String)
    (counter f : Nat) (hl : lookup branchName = false) :
    generateUniqueBranchNameGo lookup baseName branchName counter (f + 1) =
      (.ok branchName, 1) := by
  simp [generateUniqueBranchNameGo, hl]

/-- The counting loop performs at most 101 - counter existence checks from a counter
of at most 100. -/
theorem genGo_checks_le (lookup : String → Bool) (baseName : String) :
    ∀ fuel branchName counter, counter ≤ 100 →
      (generateUniqueBranchNameGo lookup baseName branchName counter fuel).2 ≤
        101 - counter := by
  intro fuel
  induction fuel with
  | zero =>
    intro branchName counter h
    simp [generateUniqueBranchNameGo]
  | succ f ih =>
    intro branchName counter h
    rcases Bool.eq_false_or_eq_true (lookup branchName) with hl | hl
    · by_cases hc : counter + 1 > 100
      · rw [genGo_step_conflict lookup baseName branchName counter f hl hc]
        simp
        omega
      · have hrec := ih (baseName ++ "-" ++ toString counter) (counter + 1) (by omega)
        rw [genGo_step_continue lookup baseName branchName counter f hl hc]
        dsimp only
        omega
    · rw [genGo_step_found lookup baseName branchName counter f hl]
      simp
      omega

/-- Every name the counting loop returns successfully was reported absent. -/
theorem genGo_ok_absent (lookup : String → Bool) (baseName : String) :
    ∀ fuel branchName counter n,
      (generateUniqueBranchNameGo lookup baseName branchName counter fuel).1 = .ok n →
      lookup n = false := by
  intro fuel
  induction fuel with
  | zero =>
    intro branchName counter n h
    simp [generateUniqueBranchNameGo] at h
  | succ f ih =>
    intro branchName counter n h
    rcases Bool.eq_false_or_eq_true (lookup branchName) with hl | hl
    · by_cases hc : counter + 1 > 100
      · rw [genGo_step_conflict lookup baseName branchName counter f hl hc] at h
        dsimp only at h
        cases h
      · rw [genGo_step_continue lookup baseName branchName counter f hl hc] at h
        dsimp only at h
        exact ih (baseName ++ "-" ++ toString counter) (counter + 1) n h
    · rw [genGo_step_found lookup baseName branchName counter f hl] at h
      dsimp only at h
      cases h
      exact hl

/-- When every name is reported taken, the counting loop ends in the BRANCH_CONFLICT
error, given enough fuel. -/
theorem genGo_all_taken (lookup : String → Bool) (baseName : String)
    (hall : ∀ n, lookup n = true) :
    ∀ fuel counter branchName, counter ≤ 100 → 102 ≤ fuel + counter →
      (generateUniqueBranchNameGo lookup baseName branchName counter fuel).1 =
        .error branchConflictError := by
  intro fuel
  induction fuel with
  | zero =>
    intro counter branchName h1 h2
    omega
  | succ f ih =>
    intro counter branchName h1 h2
    by_cases hc : counter + 1 > 100
    · rw [genGo_step_conflict lookup baseName branchName counter f (hall branchName) hc]
    · have hrec := ih (counter + 1) (baseName ++ "-" ++ toString counter) (by omega) (by omega)
      rw [genGo_step_continue lookup baseName branchName counter f (hall branchName) hc]
      dsimp only
      exact hrec

/-- Claim C6: the counting branch resolver performs a bounded number of existence
checks (at most 100), only ever returns a name the existence check reported absent,
and raises the BRANCH_CONFLICT error when every candidate collides, instead of
looping indefinitely or returning an unverified name. -/
theorem generateUniqueBranchName_bounded_conflict (lookup : String → Bool)
    (baseName : String) :
    (generateUniqueBranchName lookup baseName).2 ≤ 100 ∧
    (∀ n, (generateUniqueBranchName lookup baseName).1 = .ok n → lookup n = false) ∧
    ((∀ n, lookup n = true) →
      (generateUniqueBranchName lookup baseName).1 = .error branchConflictError) := by
  refine ⟨?_, ?_, ?_⟩
  · have h := genGo_checks_le lookup baseName 101 baseName 1 (by omega)
    simpa [generateUniqueBranchName] using h
  · intro n h
    exact genGo_ok_absent lookup baseName 101 baseName 1 n h
  · intro hall
    exact genGo_all_taken lookup baseName hall 101 1 baseName (by omega) (by omega)

/-- Witness for C6: with every name taken, the resolver for the session base name
raises BRANCH_CONFLICT within the check budget. -/
theorem generateUniqueBranchName_bounded_conflict_witness :
    (generateUniqueBranchName lookupAllTaken "coding-agent/s1").1 =
      .error branchConflictError ∧
    (generateUniqueBranchName lookupAllTaken "coding-agent/s1").2 ≤ 100 :=
  ⟨(generateUniqueBranchName_bounded_conflict lookupAllTaken "coding-agent/s1").2.2
      (fun _ => rfl),
    (generateUniqueBranchName_bounded_conflict lookupAllTaken "coding-agent/s1").1⟩

/-- Unfolding of the retry loop when the attempt succeeds. -/
theorem retryGo_step_ok {A : Type} (op : Nat → Except ThrownError A)
    (maxRetries baseDelay attempt f : Nat) (v : A) (hop : op attempt = .ok v) :
    retryGo op maxRetries baseDelay attempt (f + 1) =
      { result := .ok v, attemptsMade := attempt, delays := [] } := by
  simp [retryGo, hop]

/-- Unfolding of the retry loop when the attempt fails and the loop stops (error not
retryable, or final attempt). -/
theorem retryGo_step_stop {A : Type} (op : Nat → Except ThrownError A)
    (maxRetries baseDelay attempt f : Nat) (e : ThrownError) (hop : op attempt = .error e)
    (hstop : (!isRetryableError (toJsError e) || decide (attempt = maxRetries)) = true) :
    retryGo op maxRetries baseDelay attempt (f + 1) =
      { result := .error (some (toJsError e)), attemptsMade := attempt, delays := [] } := by
  simp [retryGo, hop, hstop]

/-- Unfolding of the retry loop when the attempt fails with a retryable error before
the final attempt: sleep the backoff delay and continue. -/
theorem retryGo_step_retry {A : Type} (op : Nat → Except ThrownError A)
    (maxRetries baseDelay attempt f : Nat) (e : ThrownError) (hop : op attempt = .error e)
    (hstop : (!isRetryableError (toJsError e) || decide (attempt = maxRetries)) = false) :
    retryGo op maxRetries baseDelay attempt (f + 1) =
      { result := (retryGo op maxRetries baseDelay (attempt + 1) f).result,
        attemptsMade := (retryGo op maxRetries baseDelay (attempt + 1) f).attemptsMade,
        delays := baseDelay * 2 ^ (attempt - 1) ::
          (retryGo op maxRetries baseDelay (attempt + 1) f).delays } := by
  simp [retryGo, hop, hstop]

/-- The retry loop entered at any attempt with matching fuel satisfies the retry
specification. -/
theorem retryGo_spec_aux {A : Type} (op : Nat → Except ThrownError A)
    (maxRetries baseDelay : Nat) :
    ∀ fuel attempt, 1 ≤ attempt → attempt + fuel = maxRetries + 1 → 1 ≤ fuel →
      RetryGoSpec op maxRetries baseDelay attempt
        (retryGo op maxRetries baseDelay attempt fuel) := by
  intro fuel
  induction fuel with
  | zero =>
    intro attempt h1 h2 h3
    omega
  | succ f ih =>
    intro attempt h1 h2 _
    cases hop : op attempt with
    | ok v =>
      rw [RetryGoSpec, retryGo_step_ok op maxRetries baseDelay attempt f v hop]
      dsimp only
      refine ⟨⟨le_refl _, by omega⟩, by simp, ?_, ?_, ?_⟩
      · intro k hk1 hk2
        omega
      · intro e he
        cases he
      · intro v2 hv
        cases hv
        exact hop
    | error e =>
      rcases Bool.eq_false_or_eq_true
          (!isRetryableError (toJsError e) || decide (attempt = maxRetries)) with hstop | hstop
      · rw [RetryGoSpec, retryGo_step_stop op maxRetries baseDelay attempt f e hop hstop]
        dsimp only
        refine ⟨⟨le_refl _, by omega⟩, by simp, ?_, ?_, ?_⟩
        · intro k hk1 hk2
          omega
        · intro e2 he2
          cases he2
          refine ⟨e, hop, rfl, ?_⟩
          rcases Bool.or_eq_true_iff.mp hstop with hl | hr
          · left
            simpa using hl
          · right
            exact of_decide_eq_true hr
        · intro v hv
          cases hv
      · obtain ⟨ha, hb⟩ := Bool.or_eq_false_iff.mp hstop
        have hretry : isRetryableError (toJsError e) = true := by
          revert ha
          cases isRetryableError (toJsError e) <;> simp
        have hne : attempt ≠ maxRetries := of_decide_eq_false hb
        have hrec := ih (attempt + 1) (by omega) (by omega) (by omega)
        obtain ⟨⟨hb1, hb2⟩, hdel, hhist, herr, hok⟩ := hrec
        rw [RetryGoSpec, retryGo_step_retry op maxRetries baseDelay attempt f e hop hstop]
        dsimp only
        refine ⟨⟨by omega, hb2⟩, ?_, ?_, herr, hok⟩
        · have hm : (retryGo op maxRetries baseDelay (attempt + 1) f).attemptsMade - attempt =
              ((retryGo op maxRetries baseDelay (attempt + 1) f).attemptsMade -
                (attempt + 1)) + 1 := by
            omega
          rw [hm, List.range_succ_eq_map, List.map_cons, List.map_map]
          have htail : (retryGo op maxRetries baseDelay (attempt + 1) f).delays =
              (List.range ((retryGo op maxRetries baseDelay (attempt + 1) f).attemptsMade -
                (attempt + 1))).map
                ((fun k => baseDelay * 2 ^ (attempt - 1 + k)) ∘ Nat.succ) := by
            rw [hdel]
            apply List.map_congr_left
            intro a _
            simp only [Function.comp_apply, Nat.succ_eq_add_one]
            have hx : attempt + 1 - 1 + a = attempt - 1 + (a + 1) := by omega
            rw [hx]
          rw [htail]
          simp
        · intro k hk1 hk2
          rcases Nat.eq_or_lt_of_le hk1 with hEq | hlt2
          · refine ⟨e, ?_, hretry⟩
            rw [← hEq]
            exact hop
          · exact hhist k hlt2 hk2

/-- Claim C4: for every wrapped operation, retryOperation makes between 1 and
maxRetries invocations; every invocation before the last failed with an error
classified transient by isRetryableError, and the delay slept after the k-th attempt
is baseDelay * 2 ^ (k - 1); a rethrown error is exactly the outcome of the last
invocation, which was either non-transient (propagated immediately, with no further
invocation) or the final permitted attempt; a success is the outcome of the last
invocation. -/
theorem retryOperation_spec {A : Type} (op : Nat → Except ThrownError A)
    (maxRetries baseDelay : Nat) (h : 1 ≤ maxRetries) :
    (1 ≤ (retryOperation op maxRetries baseDelay).attemptsMade ∧
      (retryOperation op maxRetries baseDelay).attemptsMade ≤ maxRetries) ∧
    (retryOperation op maxRetries baseDelay).delays =
      (List.range ((retryOperation op maxRetries baseDelay).attemptsMade - 1)).map
        (fun k => baseDelay * 2 ^ k) ∧
    (∀ k, 1 ≤ k → k < (retryOperation op maxRetries baseDelay).attemptsMade →
      ∃ e, op k = .error e ∧ isRetryableError (toJsError e) = true) ∧
    (∀ e, (retryOperation op maxRetries baseDelay).result = .error (some e) →
      ∃ e0, op (retryOperation op maxRetries baseDelay).attemptsMade = .error e0 ∧
        e = toJsError e0 ∧
        (isRetryableError e = false ∨
          (retryOperation op maxRetries baseDelay).attemptsMade = maxRetries)) ∧
    (∀ v, (retryOperation op maxRetries baseDelay).result = .ok v →
      op (retryOperation op maxRetries baseDelay).attemptsMade = .ok v) := by
  have haux := retryGo_spec_aux op maxRetries baseDelay maxRetries 1 (le_refl _) (by omega) h
  obtain ⟨hb, hdel, hhist, herr, hok⟩ := haux
  refine ⟨hb, ?_, hhist, herr, hok⟩
  unfold retryOperation
  rw [hdel]
  apply List.map_congr_left
  intro a _
  norm_num

/-- Witness for C4: the operation opC4 fails with a transient timeout on attempt 1
(slept delay 1000 = baseDelay * 2 ^ 0), then fails with a non-transient permission
error on attempt 2, which propagates immediately: two invocations in total. -/
theorem retryOperation_spec_witness :
    (retryOperation opC4 3 1000).attemptsMade ≤ 3 ∧
    (retryOperation opC4 3 1000).attemptsMade = 2 ∧
    (retryOperation opC4 3 1000).result =
      .error (some (ThrownError.jsError "permission denied")) ∧
    (retryOperation opC4 3 1000).delays = [1000] ∧
    isRetryableError (ThrownError.jsError "permission denied") = false := by
  refine ⟨(retryOperation_spec opC4 3 1000 (by decide)).1.2, rfl, rfl, rfl, rfl⟩

/-- The mutated table returned by the admission check is the cleaned table. -/
theorem checkConcurrentRequests_snd (now : Nat) (clientIp : String)
    (table : List ActiveRequest) :
    (checkConcurrentRequests now clientIp table).2 = cleanupExpiredRequests now table := by
  unfold checkConcurrentRequests
  dsimp only
  split_ifs <;> rfl

/-- A positive admission decision means both counts on the cleaned table are below
their limits. -/
theorem checkConcurrentRequests_allowed (now : Nat) (clientIp : String)
    (table : List ActiveRequest)
    (h : (checkConcurrentRequests now clientIp table).1.allowed = true) :
    (cleanupExpiredRequests now table).length < MAX_CONCURRENT_REQUESTS ∧
    ipCount clientIp (cleanupExpiredRequests now table) < MAX_REQUESTS_PER_IP := by
  revert h
  unfold checkConcurrentRequests
  dsimp only
  split_ifs with h1 h2 <;> intro h
  · simp at h
  · simp at h
  · omega

/-- Bounding a count by a disjunctive cover of the predicate. -/
theorem countP_le_countP_add {α : Type} (l : List α) (p q s : α → Bool)
    (h : ∀ a ∈ l, p a = true → q a = true ∨ s a = true) :
    l.countP p ≤ l.countP q + l.countP s := by
  induction l with
  | nil => simp
  | cons a t ih =>
    have ht := ih (fun b hb hpb => h b (List.mem_cons_of_mem a hb) hpb)
    simp only [List.countP_cons]
    by_cases hp : p a = true
    · rcases h a (List.mem_cons_self a t) hp with hq | hs
      · simp only [hp, hq, if_true]
        omega
      · simp only [hp, hs, if_true]
        omega
    · have hifz : (if p a = true then 1 else 0) = 0 := by simp [hp]
      rw [hifz]
      omega

/-- The per-IP count is the count of the IP predicate. -/
theorem ipCount_eq_countP (clientIp : String) (table : List ActiveRequest) :
    ipCount clientIp table = table.countP (fun r => decide (r.ip = clientIp)) :=
  (List.countP_eq_length_filter _ _).symm

/-- Per-IP counts only shrink along sublists. -/
theorem ipCount_sublist {t1 t2 : List ActiveRequest} (h : t1.Sublist t2)
    (clientIp : String) : ipCount clientIp t1 ≤ ipCount clientIp t2 :=
  (h.filter _).length_le

/-- In a table with distinct keys, at most one entry matches a given key. -/
theorem countP_id_le_one (x : String) (table : List ActiveRequest)
    (hnd : (idsOf table).Nodup) :
    table.countP (fun r => decide (r.id = x)) ≤ 1 := by
  induction table with
  | nil => simp
  | cons a t ih =>
    simp only [idsOf, List.map_cons, List.nodup_cons] at hnd
    obtain ⟨hna, hnd2⟩ := hnd
    simp only [List.countP_cons]
    by_cases hax : a.id = x
    · have h0 : t.countP (fun r => decide (r.id = x)) = 0 := by
        rw [List.countP_eq_zero]
        intro b hb
        simp only [decide_eq_true_eq]
        intro hbx
        apply hna
        have hmem : b.id ∈ t.map (fun r => r.id) := List.mem_map_of_mem _ hb
        have hbid : b.id = a.id := by rw [hbx, hax]
        rwa [hbid] at hmem
      simp [hax, h0]
    · have := ih hnd2
      simp only [hax, decide_eq_true_eq, if_false]
      omega

/-- Inserting an entry with Map.set semantics keeps the admission invariant when both
limits were strictly below their bounds before the insertion. -/
theorem admissionInv_mapSet (cleaned : List ActiveRequest) (entry : ActiveRequest)
    (hclen : cleaned.length ≤ MAX_CONCURRENT_REQUESTS)
    (hcip : ∀ ip, ipCount ip cleaned ≤ MAX_REQUESTS_PER_IP)
    (hcnd : (idsOf cleaned).Nodup)
    (hlt : cleaned.length < MAX_CONCURRENT_REQUESTS)
    (hiplt : ipCount entry.ip cleaned < MAX_REQUESTS_PER_IP) :
    AdmissionInv (mapSet cleaned entry) := by
  by_cases hpresent : cleaned.any (fun r => decide (r.id = entry.id)) = true
  · have hmap : mapSet cleaned entry =
        cleaned.map (fun r => if r.id = entry.id then entry else r) := by
      simp [mapSet, hpresent]
    rw [hmap]
    have hids : idsOf (cleaned.map (fun r => if r.id = entry.id then entry else r)) =
        idsOf cleaned := by
      simp only [idsOf, List.map_map]
      apply List.map_congr_left
      intro r _
      by_cases hr : r.id = entry.id
      · simp [hr]
      · simp [hr]
    refine ⟨?_, ?_, ?_⟩
    · rw [List.length_map]
      exact hclen
    · intro ip
      rw [ipCount_eq_countP, List.countP_map]
      have hcomp :
          ((fun r => decide (r.ip = ip)) ∘ fun r => if r.id = entry.id then entry else r) =
            (fun r => decide ((if r.id = entry.id then entry else r).ip = ip)) := rfl
      rw [hcomp]
      by_cases hipx : ip = entry.ip
      · subst hipx
        have hcover : ∀ r ∈ cleaned,
            (decide ((if r.id = entry.id then entry else r).ip = entry.ip)) = true →
            (decide (r.ip = entry.ip)) = true ∨ (decide (r.id = entry.id)) = true := by
          intro r _ hpr
          by_cases hr : r.id = entry.id
          · right
            simp [hr]
          · left
            simpa [hr] using hpr
        have hle := countP_le_countP_add cleaned _ _ _ hcover
        have hone := countP_id_le_one entry.id cleaned hcnd
        have hipc := hiplt
        rw [ipCount_eq_countP] at hipc
        omega
      · have hcover : ∀ r ∈ cleaned,
            (decide ((if r.id = entry.id then entry else r).ip = ip)) = true →
            (decide (r.ip = ip)) = true ∨ (fun _ => false) r = true := by
          intro r _ hpr
          by_cases hr : r.id = entry.id
          · rw [if_pos hr] at hpr
            simp only [decide_eq_true_eq] at hpr
            exact absurd hpr.symm hipx
          · left
            simpa [hr] using hpr
        have hle := countP_le_countP_add cleaned _ _ _ hcover
        have hzero : cleaned.countP (fun _ => false) = 0 := by
          simp
        have hipc := hcip ip
        rw [ipCount_eq_countP] at hipc
        omega
    · rw [hids]
      exact hcnd
  · have hmap : mapSet cleaned entry = cleaned ++ [entry] := by
      simp only [mapSet]
      rw [if_neg]
      simpa using hpresent
    rw [hmap]
    have hnotin : entry.id ∉ idsOf cleaned := by
      intro hmem
      obtain ⟨r, hr, hrid⟩ := List.mem_map.mp hmem
      apply hpresent
      rw [List.any_eq_true]
      exact ⟨r, hr, by simpa using hrid⟩
    refine ⟨?_, ?_, ?_⟩
    · rw [List.length_append]
      simp only [List.length_cons, List.length_nil]
      omega
    · intro ip
      have happ : ipCount ip (cleaned ++ [entry]) =
          ipCount ip cleaned + ipCount ip [entry] := by
        simp [ipCount, List.filter_append]
      rw [happ]
      by_cases hipx : ip = entry.ip
      · subst hipx
        have h1 : ipCount entry.ip [entry] ≤ 1 := List.length_filter_le _ _
        omega
      · have h0 : ipCount ip [entry] = 0 := by
          simp only [ipCount, List.filter]
          have hfalse : (decide (entry.ip = ip)) = false := by
            simp only [decide_eq_false_iff_not]
            intro hEq
            exact hipx hEq.symm
          rw [hfalse]
          rfl
        have := hcip ip
        omega
    · rw [idsOf, List.map_append, List.nodup_append]
      refine ⟨hcnd, by simp, ?_⟩
      intro x hx hx2
      simp only [List.map_cons, List.map_nil, List.mem_cons, List.not_mem_nil,
        or_false] at hx2
      rw [hx2] at hx
      exact hnotin hx

/-- One admission or unregistration event preserves the admission invariant. -/
theorem admissionStep_preserves (table : List ActiveRequest) (e : AdmissionEvent)
    (h : AdmissionInv table) : AdmissionInv (admissionStep table e) := by
  obtain ⟨hlen, hip, hnd⟩ := h
  cases e with
  | unregister requestId =>
    have hsub : (table.filter fun r => !(decide (r.id = requestId))).Sublist table :=
      List.filter_sublist table
    refine ⟨le_trans hsub.length_le hlen, ?_, ?_⟩
    · intro ip
      exact le_trans (ipCount_sublist hsub ip) (hip ip)
    · exact hnd.sublist (hsub.map _)
  | attempt requestId repositoryUrl clientIp now =>
    have hsub : (cleanupExpiredRequests now table).Sublist table := List.filter_sublist table
    have hclen : (cleanupExpiredRequests now table).length ≤ MAX_CONCURRENT_REQUESTS :=
      le_trans hsub.length_le hlen
    have hcip : ∀ ip, ipCount ip (cleanupExpiredRequests now table) ≤ MAX_REQUESTS_PER_IP :=
      fun ip => le_trans (ipCount_sublist hsub ip) (hip ip)
    have hcnd : (idsOf (cleanupExpiredRequests now table)).Nodup := hnd.sublist (hsub.map _)
    by_cases hallow : (checkConcurrentRequests now clientIp table).1.allowed = true
    · have hbounds := checkConcurrentRequests_allowed now clientIp table hallow
      have hstep : admissionStep table (.attempt requestId repositoryUrl clientIp now) =
          registerActiveRequest requestId repositoryUrl now clientIp
            (cleanupExpiredRequests now table) := by
        simp [admissionStep, hallow, checkConcurrentRequests_snd]
      rw [hstep, registerActiveRequest]
      exact admissionInv_mapSet (cleanupExpiredRequests now table) _ hclen hcip hcnd
        hbounds.1 hbounds.2
    · have hstep : admissionStep table (.attempt requestId repositoryUrl clientIp now) =
          cleanupExpiredRequests now table := by
        simp [admissionStep, hallow, checkConcurrentRequests_snd]
      rw [hstep]
      exact ⟨hclen, hcip, hcnd⟩
/-- Claim C1: starting from the empty table, along any sequence of admission checks
with registration on success (and unregistrations), the active-request table never
holds more than MAX_CONCURRENT_REQUESTS entries, never more than MAX_REQUESTS_PER_IP
entries for any client IP, and a request is registered only when the check allowed
it (a refused check leaves the table at its cleaned state). -/
theorem admission_limits_invariant (events : List AdmissionEvent) :
    (runAdmission events).length ≤ MAX_CONCURRENT_REQUESTS ∧
    (∀ clientIp, ipCount clientIp (runAdmission events) ≤ MAX_REQUESTS_PER_IP) ∧
    (∀ table requestId repositoryUrl clientIp now,
      ¬ (checkConcurrentRequests now clientIp table).1.allowed = true →
      admissionStep table (.attempt requestId repositoryUrl clientIp now) =
        (checkConcurrentRequests now clientIp table).2) ∧
    (∀ table requestId repositoryUrl clientIp now,
      (checkConcurrentRequests now clientIp table).1.allowed = true →
      admissionStep table (.attempt requestId repositoryUrl clientIp now) =
        registerActiveRequest requestId repositoryUrl now clientIp
          (checkConcurrentRequests now clientIp table).2) := by
  have hfold : ∀ (evs : List AdmissionEvent) (init : List ActiveRequest),
      AdmissionInv init → AdmissionInv (List.foldl admissionStep init evs) := by
    intro evs
    induction evs with
    | nil => intro init h; simpa using h
    | cons e t ih =>
      intro init h
      exact ih _ (admissionStep_preserves init e h)
  have hrun : AdmissionInv (runAdmission events) := by
    rw [runAdmission]
    apply hfold
    refine ⟨by simp [MAX_CONCURRENT_REQUESTS], ?_, by simp [idsOf]⟩
    intro ip
    simp [ipCount, MAX_REQUESTS_PER_IP]
  refine ⟨hrun.1, hrun.2.1, ?_, ?_⟩
  · intro table requestId repositoryUrl clientIp now hna
    simp [admissionStep, hna]
  · intro table requestId repositoryUrl clientIp now hal
    simp [admissionStep, hal]

/-- Witness for C1: seven admission attempts (three from one IP) leave at most five
entries and at most two for the shared IP; against a full table of five live entries
a further check is refused and registers nothing. -/
theorem admission_limits_invariant_witness :
    (runAdmission eventsC1).length ≤ MAX_CONCURRENT_REQUESTS ∧
    ipCount "ip1" (runAdmission eventsC1) ≤ MAX_REQUESTS_PER_IP ∧
    ¬ (checkConcurrentRequests 0 "ip9" tableFullC1).1.allowed = true ∧
    admissionStep tableFullC1 (.attempt "z" "r" "ip9" 0) =
      (checkConcurrentRequests 0 "ip9" tableFullC1).2 := by
  refine ⟨(admission_limits_invariant eventsC1).1,
          (admission_limits_invariant eventsC1).2.1 "ip1", by decide, ?_⟩
  exact (admission_limits_invariant eventsC1).2.2.1 tableFullC1 "z" "r" "ip9" 0 (by decide)

/-- The compensating cleanup never touches the session, whatever the branch deletion
produced. -/
theorem cleanup_fst (s : CodingSession) (d : Except ThrownError Unit) :
    (cleanupFailedGitOperations s d).1 = s := by
  cases d <;> rfl

/-- The catch block in closed form: it appends the failed status, records the
captured message, and leaves the session otherwise untouched by the cleanup. -/
theorem finishFailed_eq (s : CodingSession) (assigns : List SessionStatus) (e : ThrownError)
    (d : Except ThrownError Unit) :
    finishFailed s assigns e d =
      { response := { success := false, pullRequestUrl := none, branchName := none,
                      error := some (handleErrorMessage e) },
        session := some (updateSessionStatus s .failed (some (capturedMessage e))),
        assigns := assigns ++ [.failed], caught := some e } := by
  unfold finishFailed
  dsimp only
  split_ifs with h
  · rfl
  · cases d <;> rfl

/-- A list guarded by an emptiness fallback is never empty. -/
theorem length_ite_isEmpty {α : Type} (l : List α) (x : α) :
    1 ≤ (if l.isEmpty then [x] else l).length := by
  cases l <;> simp

/-- Claim C10, generation part (helper): the mock generator always produces at least
one file operation. -/
theorem generateCodeWithAI_nonempty (aiPrompt : String) :
    1 ≤ (generateCodeWithAI aiPrompt).length := by
  unfold generateCodeWithAI
  dsimp only
  exact length_ite_isEmpty _ _

/-- Path adjustment keeps the number of generated files. -/
theorem determineFileLocations_length (files : List GeneratedCode)
    (directories : List String) :
    (determineFileLocations files directories).length = files.length :=
  List.length_map _ _

/-- Splitting a non-empty operation list by create/modify leaves at least one file on
one of the two sides. -/
theorem filter_ops_cover (files : List GeneratedCode) (h : 1 ≤ files.length) :
    1 ≤ (files.filter (fun f => decide (f.operation = .create))).length +
        (files.filter (fun f => decide (f.operation = .modify))).length := by
  cases files with
  | nil => simp at h
  | cons f t =>
    cases hop : f.operation with
    | create =>
      simp only [List.filter_cons, hop]
      simp
      omega
    | modify =>
      simp only [List.filter_cons, hop]
      simp
      omega

/-- Claim C7 (amended): on every failing run the session ends failed, its error field
holding the captured form of the first error that reached the catch (the message of
an Error instance when non-empty, the fixed Unknown error string for a thrown plain
object, and left unset for an empty message); the outcome of the compensating branch
deletion changes neither the session nor the response. -/
theorem processRequest_failure_capture (prompt repositoryUrl baseBranch : String)
    (env : RunEnv) :
    (∀ e s, (processRequest prompt repositoryUrl baseBranch env).caught = some e →
      (processRequest prompt repositoryUrl baseBranch env).session = some s →
      s.status = .failed ∧
      s.error = (if capturedMessage e = "" then none else some (capturedMessage e))) ∧
    (∀ d, (processRequest prompt repositoryUrl baseBranch
        { env with cleanupDeleteOutcome := d }).session =
      (processRequest prompt repositoryUrl baseBranch env).session ∧
      (processRequest prompt repositoryUrl baseBranch
        { env with cleanupDeleteOutcome := d }).response =
      (processRequest prompt repositoryUrl baseBranch env).response) := by
  constructor
  · intro e s hc hs
    rcases Bool.eq_false_or_eq_true env.validationOk with hv | hv
    · cases ha : env.analyzeOutcome with
      | error e0 =>
        simp [processRequest, hv, ha, finishFailed_eq] at hc hs
        subst hc
        subst hs
        constructor
        · rfl
        · simp [updateSessionStatus, createSession]
      | ok u0 =>
        cases hg : (generateUniqueBranchName env.branchLookup
            ("coding-agent/" ++ env.sessionId)).1 with
        | error e0 =>
          simp [processRequest, hv, ha, hg, finishFailed_eq, updateSessionStatus,
            createSession] at hc hs
          subst hc
          subst hs
          exact ⟨rfl, by simp [updateSessionStatus, createSession]⟩
        | ok uniq =>
          cases hcb : env.createBranchOutcome with
          | error e0 =>
            simp [processRequest, hv, ha, hg, hcb, finishFailed_eq, cleanup_fst,
              updateSessionStatus, createSession] at hc hs
            subst hc
            subst hs
            exact ⟨rfl, by simp [updateSessionStatus, createSession]⟩
          | ok u1 =>
            cases hcm : env.commitOutcome with
            | error e0 =>
              simp [processRequest, hv, ha, hg, hcb, hcm, finishFailed_eq, cleanup_fst,
                updateSessionStatus, createSession] at hc hs
              subst hc
              subst hs
              exact ⟨rfl, by simp [updateSessionStatus, createSession]⟩
            | ok u2 =>
              cases hp : env.pushOutcome with
              | error e0 =>
                simp [processRequest, hv, ha, hg, hcb, hcm, hp, finishFailed_eq,
                  cleanup_fst, updateSessionStatus, createSession] at hc hs
                subst hc
                subst hs
                exact ⟨rfl, by simp [updateSessionStatus, createSession]⟩
              | ok u3 =>
                cases hpr : env.prOutcome with
                | error e0 =>
                  simp [processRequest, hv, ha, hg, hcb, hcm, hp, hpr, finishFailed_eq,
                    updateSessionStatus, createSession] at hc hs
                  subst hc
                  subst hs
                  exact ⟨rfl, by simp [updateSessionStatus, createSession]⟩
                | ok url =>
                  simp [processRequest, hv, ha, hg, hcb, hcm, hp, hpr,
                    updateSessionStatus, createSession] at hc
    · simp [processRequest, hv] at hs
  · intro d
    rcases Bool.eq_false_or_eq_true env.validationOk with hv | hv
    · cases ha : env.analyzeOutcome with
      | error e0 =>
        constructor <;> simp [processRequest, hv, ha, finishFailed_eq]
      | ok u0 =>
        cases hg : (generateUniqueBranchName env.branchLookup
            ("coding-agent/" ++ env.sessionId)).1 with
        | error e0 =>
          constructor <;> simp [processRequest, hv, ha, hg, finishFailed_eq,
            updateSessionStatus, createSession]
        | ok uniq =>
          cases hcb : env.createBranchOutcome with
          | error e0 =>
            constructor <;> simp [processRequest, hv, ha, hg, hcb, finishFailed_eq,
              cleanup_fst, updateSessionStatus, createSession]
          | ok u1 =>
            cases hcm : env.commitOutcome with
            | error e0 =>
              constructor <;> simp [processRequest, hv, ha, hg, hcb, hcm, finishFailed_eq,
                cleanup_fst, updateSessionStatus, createSession]
            | ok u2 =>
              cases hp : env.pushOutcome with
              | error e0 =>
                constructor <;> simp [processRequest, hv, ha, hg, hcb, hcm, hp,
                  finishFailed_eq, cleanup_fst, updateSessionStatus, createSession]
              | ok u3 =>
                cases hpr : env.prOutcome with
                | error e0 =>
                  constructor <;> simp [processRequest, hv, ha, hg, hcb, hcm, hp, hpr,
                    finishFailed_eq, updateSessionStatus, createSession]
                | ok url =>
                  constructor <;> simp [processRequest, hv, ha, hg, hcb, hcm, hp, hpr,
                    updateSessionStatus, createSession]
    · constructor <;> simp [processRequest, hv]

/-- Counterexample to claim C7 as stated: the analysis step throws a plain
CodingError object (as the analyzeCodebase wrappers do); since it is not an Error
instance, the catch records the fixed string Unknown error, not the message of the
first error encountered. -/
theorem processRequest_error_capture_counterexample :
    (processRequest "p" "u" "main" envC7bad).caught =
      some (.codingErrorObj "CODE_GENERATION_FAILED"
        "Failed to analyze project structure: network down") ∧
    errMessage (.codingErrorObj "CODE_GENERATION_FAILED"
        "Failed to analyze project structure: network down") =
      "Failed to analyze project structure: network down" ∧
    ((processRequest "p" "u" "main" envC7bad).session.map (fun s => s.error)) =
      some (some "Unknown error") ∧
    (some "Unknown error" : Option String) ≠
      some "Failed to analyze project structure: network down" := by
  refine ⟨by decide, rfl, by decide, by decide⟩

/-- Witness for the amended C7: an Error instance with message repository timeout is
captured verbatim in the failed session. -/
theorem processRequest_failure_capture_witness :
    (processRequest "p" "u" "main" envC7good).caught =
      some (.jsError "repository timeout") ∧
    (processRequest "p" "u" "main" envC7good).session = some sessC7good ∧
    sessC7good.status = .failed ∧ sessC7good.error = some "repository timeout" := by
  have h := (processRequest_failure_capture "p" "u" "main" envC7good).1
    (.jsError "repository timeout") sessC7good (by decide) (by decide)
  refine ⟨by decide, by decide, h.1, ?_⟩
  have h2 := h.2
  simpa [capturedMessage] using h2

/-- Claim C8: in every run the sequence of values taken by the session status field
is a prefix of analyzing, generating, committing, creating-pr, completed, optionally
ended by a single jump to failed from a non-terminal point; in particular nothing is
assigned after completed or failed. -/
theorem processRequest_status_monotone (prompt repositoryUrl baseBranch : String)
    (env : RunEnv) :
    ∃ k, k ≤ 5 ∧
      (valuesTaken (processRequest prompt repositoryUrl baseBranch env) =
          statusChain.take k ∨
        (k ≤ 4 ∧ valuesTaken (processRequest prompt repositoryUrl baseBranch env) =
          statusChain.take k ++ [.failed])) := by
  rcases Bool.eq_false_or_eq_true env.validationOk with hv | hv
  · cases ha : env.analyzeOutcome with
    | error e =>
      refine ⟨1, by omega, Or.inr ⟨by omega, ?_⟩⟩
      simp [processRequest, hv, ha, finishFailed_eq, valuesTaken, dedupConsec, statusChain]
    | ok u0 =>
      cases hg : (generateUniqueBranchName env.branchLookup
          ("coding-agent/" ++ env.sessionId)).1 with
      | error e =>
        refine ⟨3, by omega, Or.inr ⟨by omega, ?_⟩⟩
        simp [processRequest, hv, ha, hg, finishFailed_eq, valuesTaken, dedupConsec,
          statusChain, updateSessionStatus, createSession]
      | ok uniq =>
        cases hcb : env.createBranchOutcome with
        | error e =>
          refine ⟨3, by omega, Or.inr ⟨by omega, ?_⟩⟩
          simp [processRequest, hv, ha, hg, hcb, finishFailed_eq, cleanup_fst,
            valuesTaken, dedupConsec, statusChain, updateSessionStatus, createSession]
        | ok u1 =>
          cases hcm : env.commitOutcome with
          | error e =>
            refine ⟨3, by omega, Or.inr ⟨by omega, ?_⟩⟩
            simp [processRequest, hv, ha, hg, hcb, hcm, finishFailed_eq, cleanup_fst,
              valuesTaken, dedupConsec, statusChain, updateSessionStatus, createSession]
          | ok u2 =>
            cases hp : env.pushOutcome with
            | error e =>
              refine ⟨3, by omega, Or.inr ⟨by omega, ?_⟩⟩
              simp [processRequest, hv, ha, hg, hcb, hcm, hp, finishFailed_eq,
                cleanup_fst, valuesTaken, dedupConsec, statusChain, updateSessionStatus,
                createSession]
            | ok u3 =>
              cases hpr : env.prOutcome with
              | error e =>
                refine ⟨4, by omega, Or.inr ⟨by omega, ?_⟩⟩
                simp [processRequest, hv, ha, hg, hcb, hcm, hp, hpr, finishFailed_eq,
                  valuesTaken, dedupConsec, statusChain, updateSessionStatus,
                  createSession]
              | ok url =>
                refine ⟨5, by omega, Or.inl ?_⟩
                simp [processRequest, hv, ha, hg, hcb, hcm, hp, hpr, valuesTaken,
                  dedupConsec, statusChain, updateSessionStatus, createSession]
  · refine ⟨0, by omega, Or.inl ?_⟩
    simp [processRequest, hv, valuesTaken, statusChain]

/-- Claim C10: code generation always yields a non-empty list of file operations, and
every run whose status field reached creating-pr holds a session with at least one
committed file operation (a change request is never opened against an empty set). -/
theorem processRequest_pr_nonempty_files (prompt repositoryUrl baseBranch : String)
    (env : RunEnv) :
    1 ≤ (generateCodeWithAI env.aiPrompt).length ∧
    (SessionStatus.creatingPr ∈
        valuesTaken (processRequest prompt repositoryUrl baseBranch env) →
      ((processRequest prompt repositoryUrl baseBranch env).session.map
        (fun s => s.createdFiles.length + s.modifiedFiles.length)).getD 0 ≥ 1) := by
  refine ⟨generateCodeWithAI_nonempty env.aiPrompt, ?_⟩
  have hfiles : 1 ≤ (determineFileLocations (generateCodeWithAI env.aiPrompt)
      env.directories).length := by
    rw [determineFileLocations_length]
    exact generateCodeWithAI_nonempty env.aiPrompt
  have hcover := filter_ops_cover _ hfiles
  rcases Bool.eq_false_or_eq_true env.validationOk with hv | hv
  · cases ha : env.analyzeOutcome with
    | error e =>
      simp [processRequest, hv, ha, finishFailed_eq, valuesTaken, dedupConsec]
    | ok u0 =>
      cases hg : (generateUniqueBranchName env.branchLookup
          ("coding-agent/" ++ env.sessionId)).1 with
      | error e =>
        simp [processRequest, hv, ha, hg, finishFailed_eq, valuesTaken, dedupConsec,
          updateSessionStatus, createSession]
      | ok uniq =>
        cases hcb : env.createBranchOutcome with
        | error e =>
          simp [processRequest, hv, ha, hg, hcb, finishFailed_eq, cleanup_fst,
            valuesTaken, dedupConsec, updateSessionStatus, createSession]
        | ok u1 =>
          cases hcm : env.commitOutcome with
          | error e =>
            simp [processRequest, hv, ha, hg, hcb, hcm, finishFailed_eq, cleanup_fst,
              valuesTaken, dedupConsec, updateSessionStatus, createSession]
          | ok u2 =>
            cases hp : env.pushOutcome with
            | error e =>
              simp [processRequest, hv, ha, hg, hcb, hcm, hp, finishFailed_eq,
                cleanup_fst, valuesTaken, dedupConsec, updateSessionStatus,
                createSession]
            | ok u3 =>
              cases hpr : env.prOutcome with
              | error e =>
                intro _
                simp [processRequest, hv, ha, hg, hcb, hcm, hp, hpr, finishFailed_eq,
                  updateSessionStatus, createSession]
                omega
              | ok url =>
                intro _
                simp [processRequest, hv, ha, hg, hcb, hcm, hp, hpr,
                  updateSessionStatus, createSession]
                omega
  · simp [processRequest, hv, valuesTaken]

/-- Witness for C10: a successful run reaches creating-pr with one generated module
file committed. -/
theorem processRequest_pr_nonempty_files_witness :
    SessionStatus.creatingPr ∈ valuesTaken (processRequest "p" "u" "main" envC10) ∧
    ((processRequest "p" "u" "main" envC10).session.map
      (fun s => s.createdFiles.length + s.modifiedFiles.length)).getD 0 ≥ 1 := by
  refine ⟨by decide, ?_⟩
  exact (processRequest_pr_nonempty_files "p" "u" "main" envC10).2 (by decide)

end DevxAgents
